import Mathlib

/-!
Verification development for the execution-engine connectivity layer:
a shallow embedding of `beacon_node/execution_layer/src/engines.rs` and
`beacon_node/builder_client/src/lib.rs`, with theorems about engine health
transitions, the watch-channel notification discipline, the payload-id LRU
cache, the upcheck/request orchestration, and the builder client timeouts.

Durations are modelled in integral units (seconds for the engine cache age
limit, milliseconds for builder timeouts). Hashes, payload attributes and
payload ids are modelled as natural numbers; only their equality is ever
used by the embedded code.
-/

namespace Engines

/-- Execution block hash; `ExecutionBlockHash::zero()` is modelled by `0`. -/
abbrev ExecutionBlockHash := Nat

/-- Opaque payload-build attributes; the code uses only equality and hashing. -/
abbrev PayloadAttributes := Nat

/-- Opaque payload identifier returned by the endpoint. -/
abbrev PayloadId := Nat

/-- Opaque capabilities record returned by `get_engine_capabilities`. -/
abbrev EngineCapabilities := Nat

/-- Opaque client version record returned by `get_engine_version`. -/
abbrev ClientVersionV1 := Nat

/-- `PAYLOAD_ID_LRU_CACHE_SIZE`: the number of payload IDs stored per engine. -/
def PAYLOAD_ID_LRU_CACHE_SIZE : Nat := 512

/-- `CACHED_RESPONSE_AGE_LIMIT`: 900 seconds (15 minutes). -/
def CACHED_RESPONSE_AGE_LIMIT : Nat := 900

/-- The remembered state of an engine (`EngineStateInternal`); default `Offline`. -/
inductive EngineStateInternal
  | Synced
  | Offline
  | Syncing
  | AuthFailed
deriving DecidableEq, Repr

instance : Inhabited EngineStateInternal := ⟨EngineStateInternal.Offline⟩

/-- Cache maintenance decided by `upcheck` (`ResponseCacheAction`). -/
inductive ResponseCacheAction
  | None
  | Update
  | Clear
deriving DecidableEq, Repr

/-- The externally visible health (`EngineState`): online or offline. -/
inductive EngineState
  | Online
  | Offline
deriving DecidableEq, Repr

/-- `impl From<EngineStateInternal> for EngineState`. -/
def EngineState.fromInternal : EngineStateInternal → EngineState
  | EngineStateInternal.Synced => EngineState.Online
  | EngineStateInternal.Syncing => EngineState.Online
  | EngineStateInternal.Offline => EngineState.Offline
  | EngineStateInternal.AuthFailed => EngineState.Offline

/-- Errors of the endpoint call surface (`engine_api::Error`), as distinguished
by `upcheck`: syncing, authentication failure (with an opaque payload), or any
other error (with an opaque code). -/
inductive EngineApiError
  | IsSyncing
  | Auth (err : Nat)
  | Other (code : Nat)
deriving DecidableEq, Repr

/-- The coordinator's error taxonomy (`EngineError`). -/
inductive EngineError
  | Offline
  | Api (error : EngineApiError)
  | BuilderApi (error : EngineApiError)
  | Auth
deriving DecidableEq, Repr

/-- Wrapper ensuring changes to the engine state are reported to watchers
(`State`): the internal state plus the current value held by the watch
channel (`notifier`). -/
structure State where
  state : EngineStateInternal
  notifier : EngineState
deriving DecidableEq, Repr

/-- `State::default()`: internal default state, channel primed with its
projection. -/
def State.default : State :=
  { state := EngineStateInternal.Offline,
    notifier := EngineState.fromInternal EngineStateInternal.Offline }

/-- `State::update`: sets the state unconditionally; the channel value is set
unconditionally and watchers are notified exactly when the projected value
changed (`send_if_modified`). Returns the new state and whether a
notification was emitted. -/
def State.update (s : State) (new_state : EngineStateInternal) : State × Bool :=
  ({ state := new_state, notifier := EngineState.fromInternal new_state },
   decide (s.notifier ≠ EngineState.fromInternal new_state))

/-- Fold a sequence of `update` calls, returning the final `State`. -/
def State.applyUpdates (s : State) (updates : List EngineStateInternal) : State :=
  updates.foldl (fun st u => (st.update u).1) s

/-- The per-update notification flags along a sequence of `update` calls. -/
def State.notifications (s : State) : List EngineStateInternal → List Bool
  | [] => []
  | u :: rest => (s.update u).2 :: ((s.update u).1.notifications rest)

/-- `ForkchoiceState`: the head/safe/finalized block-hash triple. -/
structure ForkchoiceState where
  head_block_hash : ExecutionBlockHash
  safe_block_hash : ExecutionBlockHash
  finalized_block_hash : ExecutionBlockHash
deriving DecidableEq, Repr

/-- `PayloadIdCacheKey`: a head hash paired with payload attributes. -/
structure PayloadIdCacheKey where
  head_block_hash : ExecutionBlockHash
  payload_attributes : PayloadAttributes
deriving DecidableEq, Repr

/-- `PayloadIdCacheKey::new`. -/
def PayloadIdCacheKey.new (head_block_hash : ExecutionBlockHash)
    (attributes : PayloadAttributes) : PayloadIdCacheKey :=
  { head_block_hash := head_block_hash, payload_attributes := attributes }

/-- An LRU cache (the `lru` crate's `LruCache`) of bounded capacity: the entry
list is kept most-recently-used first, so the least-recently-used entry is the
last element. -/
structure LruCache (K V : Type) where
  cap : Nat
  entries : List (K × V)
deriving DecidableEq, Repr

/-- `LruCache::put`: if the key is present, the value is updated and the entry
promoted to most-recently-used; otherwise the entry is inserted at the front,
evicting the least-recently-used entry when the cache is full. -/
def LruCache.put {K V : Type} [DecidableEq K] (c : LruCache K V) (k : K) (v : V) :
    LruCache K V :=
  if c.entries.any (fun e => decide (e.1 = k)) then
    { c with entries := (k, v) :: c.entries.filter (fun e => decide (e.1 ≠ k)) }
  else if c.cap ≤ c.entries.length then
    { c with entries := (k, v) :: c.entries.dropLast }
  else
    { c with entries := (k, v) :: c.entries }

/-- `LruCache::get`: returns the cached value if present and promotes the
entry to most-recently-used. -/
def LruCache.get {K V : Type} [DecidableEq K] (c : LruCache K V) (k : K) :
    Option V × LruCache K V :=
  match c.entries.find? (fun e => decide (e.1 = k)) with
  | Option.none => (Option.none, c)
  | Option.some e =>
    (Option.some e.2,
     { c with entries := (k, e.2) :: c.entries.filter (fun p => decide (p.1 ≠ k)) })

/-- `ForkchoiceUpdatedResponse`: an optional payload id plus the rest of the
response (payload status), modelled opaquely. -/
structure ForkchoiceUpdatedResponse where
  payload_id : Option PayloadId
  payload_status : Nat
deriving DecidableEq, Repr

/-- Observable events of a coordinator operation: health-lock choreography,
I/O calls issued against the endpoint call surface, and diagnostic logs. -/
inductive Event
  | acquireStateLock
  | releaseStateLock
  | ioUpcheckProbe
  | ioForkchoiceUpdated (state : ForkchoiceState) (withAttributes : Bool)
  | ioGetEngineCapabilities (age_limit : Option Nat)
  | ioGetEngineVersion (age_limit : Option Nat)
  | ioClearExchangeCapabilitiesCache
  | ioClearEngineVersionCache
  | logForkchoiceReissueFailed
  | logUnexpectedPayloadId (payload_id : PayloadId)
deriving DecidableEq, Repr

/-- Whether an event is an I/O call against the endpoint call surface. -/
def Event.isIoCall : Event → Bool
  | Event.ioUpcheckProbe => true
  | Event.ioForkchoiceUpdated _ _ => true
  | Event.ioGetEngineCapabilities _ => true
  | Event.ioGetEngineVersion _ => true
  | Event.ioClearExchangeCapabilitiesCache => true
  | Event.ioClearEngineVersionCache => true
  | _ => false

/-- Whether an event is a capability/version cache-maintenance call against
the call surface (the calls driven by the `ResponseCacheAction`). -/
def Event.isCacheMaintenanceCall : Event → Bool
  | Event.ioGetEngineCapabilities _ => true
  | Event.ioGetEngineVersion _ => true
  | Event.ioClearExchangeCapabilitiesCache => true
  | Event.ioClearEngineVersionCache => true
  | _ => false

/-- Whether an event is a `forkchoice_updated` call. -/
def Event.isForkchoiceCall : Event → Bool
  | Event.ioForkchoiceUpdated _ _ => true
  | _ => false

/-- Walks an event trace tracking whether the health-state lock is held and
reports whether some event satisfying `p` occurs while it is held. -/
def eventWhileLockHeldFrom (p : Event → Bool) : Bool → List Event → Bool
  | _, [] => false
  | _, Event.acquireStateLock :: rest => eventWhileLockHeldFrom p true rest
  | _, Event.releaseStateLock :: rest => eventWhileLockHeldFrom p false rest
  | held, ev :: rest => (held && p ev) || eventWhileLockHeldFrom p held rest

/-- Whether some event satisfying `p` occurs while the health lock is held. -/
def eventWhileLockHeld (p : Event → Bool) (trace : List Event) : Bool :=
  eventWhileLockHeldFrom p false trace

instance {ε α : Type} [DecidableEq ε] [DecidableEq α] : DecidableEq (Except ε α) :=
  fun a b =>
    match a, b with
    | Except.ok x, Except.ok y => decidable_of_iff (x = y) (by simp)
    | Except.error x, Except.error y => decidable_of_iff (x = y) (by simp)
    | Except.ok _, Except.error _ => Decidable.isFalse (by simp)
    | Except.error _, Except.ok _ => Decidable.isFalse (by simp)

/-- The responses the external endpoint call surface gives during one
coordinator operation: the liveness probe result, the result of a
`forkchoice_updated` re-issue, and the capability/version fetch results. -/
structure ApiBehavior where
  upcheckResult : Except EngineApiError Unit
  forkchoiceResult : Except EngineApiError ForkchoiceUpdatedResponse
  capabilitiesResult : Except EngineApiError EngineCapabilities
  versionResult : Except EngineApiError (List ClientVersionV1)
deriving DecidableEq, Repr

/-- The coordinator (`Engine`): payload-id cache, health state and the most
recently stored forkchoice state. The call surface, executor and logger are
external collaborators and appear as function arguments / emitted events. -/
structure Engine where
  payload_id_cache : LruCache PayloadIdCacheKey PayloadId
  state : State
  latest_forkchoice_state : Option ForkchoiceState
deriving DecidableEq, Repr

/-- `Engine::new`: a new, offline engine with an empty payload-id cache of
capacity `PAYLOAD_ID_LRU_CACHE_SIZE` and no stored forkchoice state. -/
def Engine.new : Engine :=
  { payload_id_cache := { cap := PAYLOAD_ID_LRU_CACHE_SIZE, entries := [] },
    state := State.default,
    latest_forkchoice_state := Option.none }

/-- `Engine::get_payload_id`: cache lookup only; promotes the entry. -/
def Engine.get_payload_id (e : Engine) (head_block_hash : ExecutionBlockHash)
    (payload_attributes : PayloadAttributes) : Option PayloadId × Engine :=
  match e.payload_id_cache.get (PayloadIdCacheKey.new head_block_hash payload_attributes) with
  | (r, c) => (r, { e with payload_id_cache := c })

/-- Result of `Engine::notify_forkchoice_updated`: the raw response returned
to the caller, the updated coordinator, and the emitted diagnostics. -/
structure NotifyResult where
  response : Except EngineApiError ForkchoiceUpdatedResponse
  engine : Engine
  logs : List Event
deriving DecidableEq, Repr

/-- `Engine::notify_forkchoice_updated`: issues `forkchoice_updated` on the
call surface (its result is `apiResult`); an error is propagated untouched.
On success, a returned payload id is cached under the head hash and the
supplied attributes; if attributes were not supplied the id is discarded with
a diagnostic. The raw response is returned regardless. -/
def Engine.notify_forkchoice_updated (e : Engine) (forkchoice_state : ForkchoiceState)
    (payload_attributes : Option PayloadAttributes)
    (apiResult : Except EngineApiError ForkchoiceUpdatedResponse) : NotifyResult :=
  match apiResult with
  | Except.error err => { response := Except.error err, engine := e, logs := [] }
  | Except.ok response =>
    match response.payload_id with
    | Option.none => { response := Except.ok response, engine := e, logs := [] }
    | Option.some payload_id =>
      match payload_attributes with
      | Option.some pa =>
        let key := PayloadIdCacheKey.new forkchoice_state.head_block_hash pa
        { response := Except.ok response,
          engine := { e with payload_id_cache := e.payload_id_cache.put key payload_id },
          logs := [] }
      | Option.none =>
        { response := Except.ok response, engine := e,
          logs := [Event.logUnexpectedPayloadId payload_id] }

/-- `Engine::set_latest_forkchoice_state`: overwrite-only store. -/
def Engine.set_latest_forkchoice_state (e : Engine) (state : ForkchoiceState) : Engine :=
  { e with latest_forkchoice_state := Option.some state }

/-- `Engine::send_latest_forkchoice_state`: re-issues the stored forkchoice
state (without attributes) unless none is stored or its head hash is the zero
hash; a failure of the re-issue is logged, never propagated. Returns the
events it emits; the coordinator state is untouched. -/
def Engine.send_latest_forkchoice_state (e : Engine) (api : ApiBehavior) : List Event :=
  match e.latest_forkchoice_state with
  | Option.none => []
  | Option.some forkchoice_state =>
    if forkchoice_state.head_block_hash = 0 then []
    else
      Event.ioForkchoiceUpdated forkchoice_state false ::
        (match api.forkchoiceResult with
         | Except.error _ => [Event.logForkchoiceReissueFailed]
         | Except.ok _ => [])

/-- The I/O the `upcheck` tail issues for a cache action, after the health
lock is released: `Update` fetches capabilities with the 15-minute age limit
and, only if that succeeded, the version; `Clear` clears both caches. -/
def cacheActionTrace (action : ResponseCacheAction) (api : ApiBehavior) : List Event :=
  match action with
  | ResponseCacheAction.None => []
  | ResponseCacheAction.Update =>
    match api.capabilitiesResult with
    | Except.error _ =>
      [Event.ioGetEngineCapabilities (Option.some CACHED_RESPONSE_AGE_LIMIT)]
    | Except.ok _ =>
      [Event.ioGetEngineCapabilities (Option.some CACHED_RESPONSE_AGE_LIMIT),
       Event.ioGetEngineVersion (Option.some CACHED_RESPONSE_AGE_LIMIT)]
  | ResponseCacheAction.Clear =>
    [Event.ioClearExchangeCapabilitiesCache, Event.ioClearEngineVersionCache]

/-- Result of `Engine::upcheck`: the updated coordinator, the cache action it
selected, and the full event trace. -/
structure UpcheckResult where
  engine : Engine
  cacheAction : ResponseCacheAction
  trace : List Event
deriving DecidableEq, Repr

/-- `Engine::upcheck`: probes the endpoint's liveness and transitions the
health state under the write lock — on success, after first re-issuing the
stored forkchoice state (still under the lock) when the prior state was not
`Synced`. The selected cache action is performed after the lock is released. -/
def Engine.upcheck (e : Engine) (api : ApiBehavior) : UpcheckResult :=
  match api.upcheckResult with
  | Except.ok _ =>
    let fcTrace :=
      if e.state.state ≠ EngineStateInternal.Synced
      then e.send_latest_forkchoice_state api
      else []
    { engine := { e with state := (e.state.update EngineStateInternal.Synced).1 },
      cacheAction := ResponseCacheAction.Update,
      trace := Event.ioUpcheckProbe :: Event.acquireStateLock :: fcTrace
        ++ [Event.releaseStateLock]
        ++ cacheActionTrace ResponseCacheAction.Update api }
  | Except.error EngineApiError.IsSyncing =>
    { engine := { e with state := (e.state.update EngineStateInternal.Syncing).1 },
      cacheAction := ResponseCacheAction.Update,
      trace := [Event.ioUpcheckProbe, Event.acquireStateLock, Event.releaseStateLock]
        ++ cacheActionTrace ResponseCacheAction.Update api }
  | Except.error (EngineApiError.Auth _) =>
    { engine := { e with state := (e.state.update EngineStateInternal.AuthFailed).1 },
      cacheAction := ResponseCacheAction.Clear,
      trace := [Event.ioUpcheckProbe, Event.acquireStateLock, Event.releaseStateLock]
        ++ cacheActionTrace ResponseCacheAction.Clear api }
  | Except.error (EngineApiError.Other _) =>
    { engine := { e with state := (e.state.update EngineStateInternal.Offline).1 },
      cacheAction := ResponseCacheAction.Clear,
      trace := [Event.ioUpcheckProbe, Event.acquireStateLock, Event.releaseStateLock]
        ++ cacheActionTrace ResponseCacheAction.Clear api }

/-- The name of the background task `request` spawns, when it spawns one. -/
inductive SpawnReason
  | upcheckAfterSuccess
  | upcheckAfterError
deriving DecidableEq, Repr

/-- `Engine::request`: runs the operation (its result is `opResult`). On
success, reads the health state and spawns a background upcheck when it is
not `Synced`; on failure, always spawns a background upcheck and returns the
error wrapped as `EngineError::Api`. The caller never awaits the spawned
task: the returned value is produced independently of it. -/
def Engine.request {α : Type} (e : Engine) (opResult : Except EngineApiError α) :
    Except EngineError α × Option SpawnReason :=
  match opResult with
  | Except.ok result =>
    if e.state.state ≠ EngineStateInternal.Synced
    then (Except.ok result, Option.some SpawnReason.upcheckAfterSuccess)
    else (Except.ok result, Option.none)
  | Except.error error =>
    (Except.error (EngineError.Api error), Option.some SpawnReason.upcheckAfterError)

/-- A forkchoice state with a non-zero head hash, for concrete scenarios. -/
def fcW : ForkchoiceState :=
  { head_block_hash := 1, safe_block_hash := 0, finalized_block_hash := 0 }

/-- Collaborator behavior in which the probe and every other call succeed. -/
def apiOkW : ApiBehavior :=
  { upcheckResult := Except.ok (),
    forkchoiceResult := Except.ok { payload_id := Option.none, payload_status := 0 },
    capabilitiesResult := Except.ok 0,
    versionResult := Except.ok [] }

/-- Collaborator behavior: the probe reports the endpoint is still syncing. -/
def apiSyncingW : ApiBehavior :=
  { apiOkW with upcheckResult := Except.error EngineApiError.IsSyncing }

/-- Collaborator behavior: the probe fails authentication. -/
def apiAuthW : ApiBehavior :=
  { apiOkW with upcheckResult := Except.error (EngineApiError.Auth 0) }

/-- Collaborator behavior: the probe fails with a generic error. -/
def apiOtherW : ApiBehavior :=
  { apiOkW with upcheckResult := Except.error (EngineApiError.Other 0) }

/-- A fresh coordinator that has stored the forkchoice state `fcW`. -/
def engineW : Engine := Engine.new.set_latest_forkchoice_state fcW

/-- A forkchoice state whose head is the zero hash (execution not enabled). -/
def fcZeroW : ForkchoiceState :=
  { head_block_hash := 0, safe_block_hash := 0, finalized_block_hash := 0 }

/-- A fresh coordinator that has stored the zero-head forkchoice state. -/
def engineZeroW : Engine := Engine.new.set_latest_forkchoice_state fcZeroW

/-- A coordinator whose internal health is `Synced`. -/
def engineSyncedW : Engine :=
  { Engine.new with
    state := { state := EngineStateInternal.Synced, notifier := EngineState.Online } }

/-- A payload-id cache of capacity 512 filled with 512 distinct keys, most
recently used first. -/
def fullCacheW : LruCache PayloadIdCacheKey PayloadId :=
  { cap := 512, entries := (List.range 512).map (fun i => (PayloadIdCacheKey.new i 0, i)) }

/-- A forkchoice-updated response carrying payload id 7. -/
def respW : ForkchoiceUpdatedResponse := { payload_id := Option.some 7, payload_status := 0 }

end Engines

namespace BuilderClient

/-- `DEFAULT_TIMEOUT_MILLIS`. -/
def DEFAULT_TIMEOUT_MILLIS : Nat := 15000

/-- `DEFAULT_GET_HEADER_TIMEOUT_MILLIS`. -/
def DEFAULT_GET_HEADER_TIMEOUT_MILLIS : Nat := 1000

/-- `Timeouts`: one timeout per builder operation, in milliseconds. -/
structure Timeouts where
  get_header : Nat
  post_validators : Nat
  post_blinded_blocks : Nat
  get_builder_status : Nat
deriving DecidableEq, Repr

/-- `Timeouts::new`: the header (bid-fetch) timeout is the supplied one or
its 1-second default; the three others are the 15-second default. -/
def Timeouts.new (get_header_timeout : Option Nat) : Timeouts :=
  { get_header := get_header_timeout.getD DEFAULT_GET_HEADER_TIMEOUT_MILLIS,
    post_validators := DEFAULT_TIMEOUT_MILLIS,
    post_blinded_blocks := DEFAULT_TIMEOUT_MILLIS,
    get_builder_status := DEFAULT_TIMEOUT_MILLIS }

/-- `BuilderHttpClient` (the timeout-relevant configuration surface). -/
structure BuilderHttpClient where
  timeouts : Timeouts
  user_agent : String
deriving DecidableEq, Repr

/-- Default user agent string, modelled opaquely. -/
def DEFAULT_USER_AGENT : String := "lighthouse-version"

/-- `BuilderHttpClient::new`: the only constructor; the sole timeout that the
caller can configure is the header (bid-fetch) one. -/
def BuilderHttpClient.new (user_agent : Option String)
    (builder_header_timeout : Option Nat) : BuilderHttpClient :=
  { timeouts := Timeouts.new builder_header_timeout,
    user_agent := user_agent.getD DEFAULT_USER_AGENT }

end BuilderClient


namespace Engines

theorem length_filter_lt_of_mem {α : Type} (p : α → Bool) (x : α) (l : List α)
    (hx : x ∈ l) (hpx : p x = false) : (l.filter p).length < l.length := by
  induction l with
  | nil => cases hx
  | cons a t ih =>
    rcases List.mem_cons.mp hx with h | h
    · subst h
      rw [List.filter_cons_of_neg (by simp [hpx])]
      exact Nat.lt_succ_of_le (List.length_filter_le _ _)
    · cases hpa : p a
      · rw [List.filter_cons_of_neg (by simp [hpa])]
        exact Nat.lt_succ_of_lt (ih h)
      · rw [List.filter_cons_of_pos (by simp [hpa])]
        simpa using Nat.succ_lt_succ (ih h)

theorem LruCache.put_cap {K V : Type} [DecidableEq K] (c : LruCache K V) (k : K) (v : V) :
    (c.put k v).cap = c.cap := by
  unfold LruCache.put
  split
  · rfl
  · split <;> rfl

theorem LruCache.put_length_le {K V : Type} [DecidableEq K] (c : LruCache K V) (k : K)
    (v : V) (hcap : 0 < c.cap) (h : c.entries.length ≤ c.cap) :
    (c.put k v).entries.length ≤ c.cap := by
  unfold LruCache.put
  by_cases hmem : c.entries.any (fun e => decide (e.1 = k)) = true
  · rw [if_pos hmem]
    obtain ⟨x, hx, hpx⟩ := List.any_eq_true.mp hmem
    have hlt : (c.entries.filter (fun e => decide (e.1 ≠ k))).length < c.entries.length := by
      refine length_filter_lt_of_mem _ x _ hx ?_
      simpa using of_decide_eq_true hpx
    dsimp only
    simp only [List.length_cons]
    omega
  · rw [if_neg hmem]
    by_cases hfull : c.cap ≤ c.entries.length
    · rw [if_pos hfull]
      dsimp only
      simp only [List.length_cons, List.length_dropLast]
      omega
    · rw [if_neg hfull]
      dsimp only
      simp only [List.length_cons]
      omega

theorem LruCache.put_entries_cons {K V : Type} [DecidableEq K] (c : LruCache K V)
    (k : K) (v : V) : ∃ t, (c.put k v).entries = (k, v) :: t ∧ t ⊆ c.entries := by
  unfold LruCache.put
  split
  · exact ⟨_, rfl, List.filter_subset' _⟩
  · split
    · exact ⟨_, rfl, (List.dropLast_sublist _).subset⟩
    · exact ⟨_, rfl, fun a ha => ha⟩

theorem LruCache.get_put_same {K V : Type} [DecidableEq K] (c : LruCache K V) (k : K)
    (v : V) : ((c.put k v).get k).1 = Option.some v := by
  obtain ⟨t, ht, _⟩ := c.put_entries_cons k v
  unfold LruCache.get
  rw [ht, List.find?_cons_of_pos _ (by simp)]

theorem LruCache.not_mem_put {K V : Type} [DecidableEq K] (c : LruCache K V)
    (k k' : K) (v : V) (hne : k' ≠ k) (h : k' ∉ c.entries.map Prod.fst) :
    k' ∉ (c.put k v).entries.map Prod.fst := by
  obtain ⟨t, ht, hsub⟩ := c.put_entries_cons k v
  rw [ht]
  intro hmem
  rcases List.mem_map.mp hmem with ⟨p, hp, hfst⟩
  rcases List.mem_cons.mp hp with h1 | h1
  · subst h1
    exact hne hfst.symm
  · exact h (hfst ▸ List.mem_map_of_mem Prod.fst (hsub h1))

theorem LruCache.get_none_of_not_mem {K V : Type} [DecidableEq K] (c : LruCache K V)
    (k : K) (h : k ∉ c.entries.map Prod.fst) : (c.get k).1 = Option.none := by
  unfold LruCache.get
  have hfind : c.entries.find? (fun e => decide (e.1 = k)) = Option.none := by
    rw [List.find?_eq_none]
    intro x hx
    simp only [decide_eq_true_eq]
    intro hxk
    exact h (hxk ▸ List.mem_map_of_mem Prod.fst hx)
  rw [hfind]

theorem LruCache.put_full_fresh {K V : Type} [DecidableEq K] (c : LruCache K V)
    (k : K) (v : V) (hfresh : k ∉ c.entries.map Prod.fst)
    (hfull : c.cap ≤ c.entries.length) :
    (c.put k v).entries = (k, v) :: c.entries.dropLast := by
  have hany : c.entries.any (fun e => decide (e.1 = k)) = false := by
    rw [List.any_eq_false]
    intro x hx
    simp only [decide_eq_true_eq]
    intro hxk
    exact hfresh (hxk ▸ List.mem_map_of_mem Prod.fst hx)
  unfold LruCache.put
  rw [hany]
  simp [hfull]

theorem foldl_put_length_le {K V : Type} [DecidableEq K]
    (ops : List (K × V)) (c : LruCache K V) (hcap : 0 < c.cap)
    (h : c.entries.length ≤ c.cap) :
    (ops.foldl (fun acc kv => acc.put kv.1 kv.2) c).entries.length
        ≤ (ops.foldl (fun acc kv => acc.put kv.1 kv.2) c).cap := by
  induction ops generalizing c with
  | nil => exact h
  | cons op rest ih =>
    refine ih (c.put op.1 op.2) ?_ ?_
    · rw [LruCache.put_cap]; exact hcap
    · rw [LruCache.put_cap]; exact c.put_length_le op.1 op.2 hcap h

theorem foldl_put_cap {K V : Type} [DecidableEq K]
    (ops : List (K × V)) (c : LruCache K V) :
    (ops.foldl (fun acc kv => acc.put kv.1 kv.2) c).cap = c.cap := by
  induction ops generalizing c with
  | nil => rfl
  | cons op rest ih => rw [List.foldl_cons, ih, LruCache.put_cap]

/-- C1: for every outcome of the liveness probe inside `upcheck`, regardless
of the prior state, the new internal health and the cache action are exactly
those of the transition table: success sets `Synced` with the
refresh-capabilities-and-version action (`Update`); an endpoint-still-syncing
error sets `Syncing` with `Update`; an authentication error sets `AuthFailed`
with `Clear`, clearing both caches; any other error sets `Offline` with
`Clear`, clearing both caches. -/
theorem thmC1 (e : Engine) (api : ApiBehavior) (err code : Nat) :
    (api.upcheckResult = Except.ok () →
      (e.upcheck api).engine.state.state = EngineStateInternal.Synced
        ∧ (e.upcheck api).cacheAction = ResponseCacheAction.Update
        ∧ Event.ioGetEngineCapabilities (Option.some CACHED_RESPONSE_AGE_LIMIT)
            ∈ (e.upcheck api).trace)
    ∧ (api.upcheckResult = Except.error EngineApiError.IsSyncing →
      (e.upcheck api).engine.state.state = EngineStateInternal.Syncing
        ∧ (e.upcheck api).cacheAction = ResponseCacheAction.Update
        ∧ Event.ioGetEngineCapabilities (Option.some CACHED_RESPONSE_AGE_LIMIT)
            ∈ (e.upcheck api).trace)
    ∧ (api.upcheckResult = Except.error (EngineApiError.Auth err) →
      (e.upcheck api).engine.state.state = EngineStateInternal.AuthFailed
        ∧ (e.upcheck api).cacheAction = ResponseCacheAction.Clear
        ∧ Event.ioClearExchangeCapabilitiesCache ∈ (e.upcheck api).trace
        ∧ Event.ioClearEngineVersionCache ∈ (e.upcheck api).trace)
    ∧ (api.upcheckResult = Except.error (EngineApiError.Other code) →
      (e.upcheck api).engine.state.state = EngineStateInternal.Offline
        ∧ (e.upcheck api).cacheAction = ResponseCacheAction.Clear
        ∧ Event.ioClearExchangeCapabilitiesCache ∈ (e.upcheck api).trace
        ∧ Event.ioClearEngineVersionCache ∈ (e.upcheck api).trace) := by
  refine ⟨?_, ?_, ?_, ?_⟩ <;> intro h
  · refine ⟨?_, ?_, ?_⟩ <;>
      cases hc : api.capabilitiesResult <;>
        simp [Engine.upcheck, h, hc, State.update, cacheActionTrace]
  · refine ⟨?_, ?_, ?_⟩ <;>
      cases hc : api.capabilitiesResult <;>
        simp [Engine.upcheck, h, hc, State.update, cacheActionTrace]
  · exact ⟨by simp [Engine.upcheck, h, State.update],
      by simp [Engine.upcheck, h],
      by simp [Engine.upcheck, h, cacheActionTrace],
      by simp [Engine.upcheck, h, cacheActionTrace]⟩
  · exact ⟨by simp [Engine.upcheck, h, State.update],
      by simp [Engine.upcheck, h],
      by simp [Engine.upcheck, h, cacheActionTrace],
      by simp [Engine.upcheck, h, cacheActionTrace]⟩

/-- C1 witness: the four probe outcomes exercised on a fresh coordinator. -/
theorem thmC1_witness :
    (apiOkW.upcheckResult = Except.ok ()
      ∧ ((engineW.upcheck apiOkW).engine.state.state = EngineStateInternal.Synced
        ∧ (engineW.upcheck apiOkW).cacheAction = ResponseCacheAction.Update
        ∧ Event.ioGetEngineCapabilities (Option.some CACHED_RESPONSE_AGE_LIMIT)
            ∈ (engineW.upcheck apiOkW).trace))
    ∧ (apiSyncingW.upcheckResult = Except.error EngineApiError.IsSyncing
      ∧ ((engineW.upcheck apiSyncingW).engine.state.state = EngineStateInternal.Syncing
        ∧ (engineW.upcheck apiSyncingW).cacheAction = ResponseCacheAction.Update
        ∧ Event.ioGetEngineCapabilities (Option.some CACHED_RESPONSE_AGE_LIMIT)
            ∈ (engineW.upcheck apiSyncingW).trace))
    ∧ (apiAuthW.upcheckResult = Except.error (EngineApiError.Auth 0)
      ∧ ((engineW.upcheck apiAuthW).engine.state.state = EngineStateInternal.AuthFailed
        ∧ (engineW.upcheck apiAuthW).cacheAction = ResponseCacheAction.Clear
        ∧ Event.ioClearExchangeCapabilitiesCache ∈ (engineW.upcheck apiAuthW).trace
        ∧ Event.ioClearEngineVersionCache ∈ (engineW.upcheck apiAuthW).trace))
    ∧ (apiOtherW.upcheckResult = Except.error (EngineApiError.Other 0)
      ∧ ((engineW.upcheck apiOtherW).engine.state.state = EngineStateInternal.Offline
        ∧ (engineW.upcheck apiOtherW).cacheAction = ResponseCacheAction.Clear
        ∧ Event.ioClearExchangeCapabilitiesCache ∈ (engineW.upcheck apiOtherW).trace
        ∧ Event.ioClearEngineVersionCache ∈ (engineW.upcheck apiOtherW).trace)) :=
  ⟨⟨rfl, (thmC1 engineW apiOkW 0 0).1 rfl⟩,
   ⟨rfl, (thmC1 engineW apiSyncingW 0 0).2.1 rfl⟩,
   ⟨rfl, (thmC1 engineW apiAuthW 0 0).2.2.1 rfl⟩,
   ⟨rfl, (thmC1 engineW apiOtherW 0 0).2.2.2 rfl⟩⟩

/-- C2 counterexample: on the success path of `upcheck`, with a prior
non-`Synced` health and a stored forkchoice state with non-zero head, the
re-issue of the forkchoice state is an endpoint I/O call performed while the
health-state write lock is held — refuting the claim that no code path of the
coordinator awaits endpoint I/O while holding the health-state lock. -/
theorem cexC2 :
    eventWhileLockHeld Event.isIoCall ((engineW.upcheck apiOkW).trace) = true := by
  decide

/-- C2 amended: capability/version cache-maintenance calls are issued
strictly after the health-state lock is released, on every path; but the
health-state write lock is held across endpoint I/O exactly when the probe
succeeds, the prior health was not `Synced`, and a forkchoice state with a
non-zero head hash is stored (the success-path forkchoice re-issue). -/
theorem thmC2 (e : Engine) (api : ApiBehavior) :
    eventWhileLockHeld Event.isCacheMaintenanceCall (e.upcheck api).trace = false
    ∧ (eventWhileLockHeld Event.isIoCall (e.upcheck api).trace = true ↔
        (api.upcheckResult = Except.ok ()
          ∧ e.state.state ≠ EngineStateInternal.Synced
          ∧ ∃ fs, e.latest_forkchoice_state = Option.some fs
              ∧ fs.head_block_hash ≠ 0)) := by
  obtain ⟨ur, fr, cr, vr⟩ := api
  cases ur with
  | error err =>
    cases err <;> cases cr <;>
      simp [Engine.upcheck, cacheActionTrace, eventWhileLockHeld,
        eventWhileLockHeldFrom, Event.isCacheMaintenanceCall, Event.isIoCall]
  | ok u =>
    cases u
    by_cases hs : e.state.state = EngineStateInternal.Synced
    · cases cr <;>
        simp [Engine.upcheck, hs, Engine.send_latest_forkchoice_state,
          cacheActionTrace, eventWhileLockHeld, eventWhileLockHeldFrom,
          Event.isCacheMaintenanceCall, Event.isIoCall]
    · cases hl : e.latest_forkchoice_state with
      | none =>
        cases cr <;>
          simp [Engine.upcheck, hs, hl, Engine.send_latest_forkchoice_state,
            cacheActionTrace, eventWhileLockHeld, eventWhileLockHeldFrom,
            Event.isCacheMaintenanceCall, Event.isIoCall]
      | some fs =>
        by_cases hz : fs.head_block_hash = 0
        · cases cr <;>
            simp [Engine.upcheck, hs, hl, hz, Engine.send_latest_forkchoice_state,
              cacheActionTrace, eventWhileLockHeld, eventWhileLockHeldFrom,
              Event.isCacheMaintenanceCall, Event.isIoCall]
        · cases fr <;> cases cr <;>
            simp [Engine.upcheck, hs, hl, hz, Engine.send_latest_forkchoice_state,
              cacheActionTrace, eventWhileLockHeld, eventWhileLockHeldFrom,
              Event.isCacheMaintenanceCall, Event.isIoCall]

/-- C4: when the probe succeeds and the prior internal health was not
`Synced`, with a stored forkchoice state of non-zero head hash, `upcheck`
issues exactly one forkchoice call carrying that stored state; it issues
none when the prior health was `Synced`, no state was ever stored, or the
stored head hash is the zero hash; and the outcome of the re-issue is never
propagated: the resulting coordinator and cache action are the same for any
result of the re-issued call. -/
theorem thmC4 (e : Engine) (api : ApiBehavior) (fs : ForkchoiceState)
    (r : Except EngineApiError ForkchoiceUpdatedResponse) :
    (api.upcheckResult = Except.ok () →
      (e.state.state ≠ EngineStateInternal.Synced →
          e.latest_forkchoice_state = Option.some fs → fs.head_block_hash ≠ 0 →
          (e.upcheck api).trace.filter Event.isForkchoiceCall
            = [Event.ioForkchoiceUpdated fs false])
        ∧ (e.state.state = EngineStateInternal.Synced
              ∨ e.latest_forkchoice_state = Option.none →
          (e.upcheck api).trace.filter Event.isForkchoiceCall = [])
        ∧ (e.latest_forkchoice_state = Option.some fs → fs.head_block_hash = 0 →
          (e.upcheck api).trace.filter Event.isForkchoiceCall = []))
    ∧ (e.upcheck { api with forkchoiceResult := r }).engine = (e.upcheck api).engine
    ∧ (e.upcheck { api with forkchoiceResult := r }).cacheAction
        = (e.upcheck api).cacheAction := by
  refine ⟨fun h => ⟨fun hs hl hz => ?_, fun hskip => ?_, fun hl hz => ?_⟩, ?_, ?_⟩
  · cases hfr : api.forkchoiceResult <;> cases hcr : api.capabilitiesResult <;>
      simp [Engine.upcheck, h, hs, hl, hz, hfr, hcr,
        Engine.send_latest_forkchoice_state, cacheActionTrace, Event.isForkchoiceCall]
  · rcases hskip with hs | hl
    · cases hcr : api.capabilitiesResult <;>
        simp [Engine.upcheck, h, hs, hcr, Engine.send_latest_forkchoice_state,
          cacheActionTrace, Event.isForkchoiceCall]
    · by_cases hs : e.state.state = EngineStateInternal.Synced <;>
        cases hcr : api.capabilitiesResult <;>
          simp [Engine.upcheck, h, hs, hl, hcr, Engine.send_latest_forkchoice_state,
            cacheActionTrace, Event.isForkchoiceCall]
  · by_cases hs : e.state.state = EngineStateInternal.Synced <;>
      cases hcr : api.capabilitiesResult <;>
        simp [Engine.upcheck, h, hs, hl, hz, hcr, Engine.send_latest_forkchoice_state,
          cacheActionTrace, Event.isForkchoiceCall]
  · obtain ⟨ur, fr, cr, vr⟩ := api
    cases ur with
    | ok u => rfl
    | error err => cases err <;> rfl
  · obtain ⟨ur, fr, cr, vr⟩ := api
    cases ur with
    | ok u => rfl
    | error err => cases err <;> rfl

/-- C4 witness: a coordinator holding a non-zero-head forkchoice state emits
exactly one re-issue; one with no stored state and one with a zero-head
stored state emit none; the coordinator outcome is unchanged when the
re-issue fails. -/
theorem thmC4_witness :
    (apiOkW.upcheckResult = Except.ok ()
      ∧ engineW.state.state ≠ EngineStateInternal.Synced
      ∧ engineW.latest_forkchoice_state = Option.some fcW
      ∧ fcW.head_block_hash ≠ 0
      ∧ (engineW.upcheck apiOkW).trace.filter Event.isForkchoiceCall
          = [Event.ioForkchoiceUpdated fcW false])
    ∧ (Engine.new.latest_forkchoice_state = Option.none
      ∧ (Engine.new.upcheck apiOkW).trace.filter Event.isForkchoiceCall = [])
    ∧ (engineZeroW.latest_forkchoice_state = Option.some fcZeroW
      ∧ fcZeroW.head_block_hash = 0
      ∧ (engineZeroW.upcheck apiOkW).trace.filter Event.isForkchoiceCall = [])
    ∧ (engineW.upcheck
          { apiOkW with forkchoiceResult := Except.error (EngineApiError.Other 9) }).engine
        = (engineW.upcheck apiOkW).engine :=
  ⟨⟨rfl, by decide, rfl, by decide,
      ((thmC4 engineW apiOkW fcW (Except.error (EngineApiError.Other 9))).1 rfl).1
        (by decide) rfl (by decide)⟩,
   ⟨rfl,
      ((thmC4 Engine.new apiOkW fcW (Except.error (EngineApiError.Other 9))).1 rfl).2.1
        (Or.inr rfl)⟩,
   ⟨rfl, rfl,
      ((thmC4 engineZeroW apiOkW fcZeroW (Except.error (EngineApiError.Other 9))).1 rfl).2.2
        rfl rfl⟩,
   (thmC4 engineW apiOkW fcW (Except.error (EngineApiError.Other 9))).2.1⟩

/-- C5: `request` returns a successful result as-is, spawning a background
upcheck task exactly when the last-known internal health is not `Synced`;
on failure it always spawns a background upcheck and immediately returns the
error wrapped as `EngineError::Api`, never awaiting the spawned task. -/
theorem thmC5 {α : Type} (e : Engine) (v : α) (err : EngineApiError) :
    (e.state.state ≠ EngineStateInternal.Synced →
      e.request (Except.ok v)
        = (Except.ok v, Option.some SpawnReason.upcheckAfterSuccess))
    ∧ (e.state.state = EngineStateInternal.Synced →
      e.request (Except.ok v) = (Except.ok v, Option.none))
    ∧ e.request (Except.error err : Except EngineApiError α)
        = (Except.error (EngineError.Api err), Option.some SpawnReason.upcheckAfterError) := by
  refine ⟨fun h => ?_, fun h => ?_, rfl⟩
  · simp [Engine.request, h]
  · simp [Engine.request, h]

/-- C5 witness: a non-`Synced` and a `Synced` coordinator on a successful
operation, and a coordinator on a failing operation. -/
theorem thmC5_witness :
    (engineW.state.state ≠ EngineStateInternal.Synced
      ∧ engineW.request (Except.ok (7 : Nat))
          = (Except.ok 7, Option.some SpawnReason.upcheckAfterSuccess))
    ∧ (engineSyncedW.state.state = EngineStateInternal.Synced
      ∧ engineSyncedW.request (Except.ok (7 : Nat)) = (Except.ok 7, Option.none))
    ∧ engineW.request (Except.error (α := Nat) (EngineApiError.Other 3))
        = (Except.error (EngineError.Api (EngineApiError.Other 3)),
           Option.some SpawnReason.upcheckAfterError) :=
  ⟨⟨by decide, (thmC5 engineW (7 : Nat) (EngineApiError.Other 3)).1 (by decide)⟩,
   ⟨rfl, (thmC5 engineSyncedW (7 : Nat) (EngineApiError.Other 3)).2.1 rfl⟩,
   (thmC5 engineW (7 : Nat) (EngineApiError.Other 3)).2.2⟩

/-- C3: along every sequence of `update` calls, after each update the watch
channel's value equals the `Online`/`Offline` projection of the current
internal health, and a change notification is delivered exactly when that
projected value differs from the previously published one. -/
theorem thmC3 (s : State) (us : List EngineStateInternal) (i : Nat) (h : i < us.length) :
    (s.applyUpdates (us.take (i + 1))).notifier
        = EngineState.fromInternal (s.applyUpdates (us.take (i + 1))).state
    ∧ (s.applyUpdates (us.take (i + 1))).state = us.getD i EngineStateInternal.Offline
    ∧ ((s.notifications us).getD i false = true ↔
        EngineState.fromInternal (us.getD i EngineStateInternal.Offline)
          ≠ (s.applyUpdates (us.take i)).notifier) := by
  induction us generalizing s i with
  | nil => exact absurd h (Nat.not_lt_zero i)
  | cons u rest ih =>
    cases i with
    | zero =>
      refine ⟨rfl, rfl, ?_⟩
      simp [State.notifications, State.update, State.applyUpdates, ne_comm]
    | succ j =>
      have hj : j < rest.length := Nat.lt_of_succ_lt_succ h
      simpa [State.applyUpdates, State.notifications, List.take_succ_cons,
        List.getD_cons_succ, List.foldl_cons] using ih (s.update u).1 j hj

/-- C3 witness: starting from the default state, the sequence
syncing-then-synced publishes `Online` once and the second (internal-only)
transition emits nothing. -/
theorem thmC3_witness :
    (1 < ([EngineStateInternal.Syncing, EngineStateInternal.Synced,
        EngineStateInternal.Offline] : List EngineStateInternal).length)
    ∧ ((State.default.applyUpdates ([EngineStateInternal.Syncing,
          EngineStateInternal.Synced, EngineStateInternal.Offline].take (1 + 1))).notifier
        = EngineState.fromInternal
            (State.default.applyUpdates ([EngineStateInternal.Syncing,
              EngineStateInternal.Synced, EngineStateInternal.Offline].take (1 + 1))).state
      ∧ (State.default.applyUpdates ([EngineStateInternal.Syncing,
            EngineStateInternal.Synced, EngineStateInternal.Offline].take (1 + 1))).state
          = [EngineStateInternal.Syncing, EngineStateInternal.Synced,
              EngineStateInternal.Offline].getD 1 EngineStateInternal.Offline
      ∧ ((State.default.notifications [EngineStateInternal.Syncing,
            EngineStateInternal.Synced, EngineStateInternal.Offline]).getD 1 false = true ↔
          EngineState.fromInternal ([EngineStateInternal.Syncing,
              EngineStateInternal.Synced, EngineStateInternal.Offline].getD 1
                EngineStateInternal.Offline)
            ≠ (State.default.applyUpdates ([EngineStateInternal.Syncing,
                EngineStateInternal.Synced, EngineStateInternal.Offline].take 1)).notifier)) :=
  ⟨by decide,
   thmC3 State.default
     [EngineStateInternal.Syncing, EngineStateInternal.Synced, EngineStateInternal.Offline]
     1 (by decide)⟩

/-- Helper: the value returned by `get_payload_id` is the cache lookup. -/
theorem Engine.get_payload_id_fst (e : Engine) (h : ExecutionBlockHash)
    (a : PayloadAttributes) :
    (e.get_payload_id h a).1 = (e.payload_id_cache.get (PayloadIdCacheKey.new h a)).1 := by
  unfold Engine.get_payload_id
  cases e.payload_id_cache.get (PayloadIdCacheKey.new h a) with
  | mk r c => rfl

/-- C6: after a successful `notify_forkchoice_updated` with attributes whose
response carries a payload id, `get_payload_id` with the same head hash and
attributes returns that id, while different attributes not cached earlier
miss; if a payload id is returned without attributes, it is discarded with a
diagnostic, the cache and coordinator are untouched, and the raw response is
still returned. -/
theorem thmC6 (e : Engine) (fs : ForkchoiceState) (A A' : PayloadAttributes)
    (P : PayloadId) (response : ForkchoiceUpdatedResponse)
    (hP : response.payload_id = Option.some P) :
    ((e.notify_forkchoice_updated fs (Option.some A) (Except.ok response)).response
        = Except.ok response)
    ∧ (((e.notify_forkchoice_updated fs (Option.some A)
          (Except.ok response)).engine.get_payload_id fs.head_block_hash A).1
        = Option.some P)
    ∧ (A' ≠ A →
        PayloadIdCacheKey.new fs.head_block_hash A'
            ∉ e.payload_id_cache.entries.map Prod.fst →
        ((e.notify_forkchoice_updated fs (Option.some A)
            (Except.ok response)).engine.get_payload_id fs.head_block_hash A').1
          = Option.none)
    ∧ ((e.notify_forkchoice_updated fs Option.none (Except.ok response)).response
          = Except.ok response
        ∧ (e.notify_forkchoice_updated fs Option.none (Except.ok response)).engine = e
        ∧ (e.notify_forkchoice_updated fs Option.none (Except.ok response)).logs
            = [Event.logUnexpectedPayloadId P]) := by
  have hn : (e.notify_forkchoice_updated fs (Option.some A) (Except.ok response)).engine
      = { e with payload_id_cache :=
            e.payload_id_cache.put (PayloadIdCacheKey.new fs.head_block_hash A) P } := by
    simp [Engine.notify_forkchoice_updated, hP]
  refine ⟨?_, ?_, ?_, ?_⟩
  · simp [Engine.notify_forkchoice_updated, hP]
  · rw [Engine.get_payload_id_fst, hn]
    exact LruCache.get_put_same _ _ _
  · intro hA hmem
    rw [Engine.get_payload_id_fst, hn]
    refine LruCache.get_none_of_not_mem _ _ ?_
    refine LruCache.not_mem_put _ _ _ _ ?_ hmem
    simp [PayloadIdCacheKey.new]
    intro hcontr
    exact absurd hcontr hA
  · refine ⟨?_, ?_, ?_⟩ <;> simp [Engine.notify_forkchoice_updated, hP]

/-- C6 witness: head hash 1, attributes 1 and 2, payload id 7, on a fresh
coordinator with an empty cache. -/
theorem thmC6_witness :
    (respW.payload_id = Option.some 7)
    ∧ ((2 : PayloadAttributes) ≠ 1)
    ∧ (PayloadIdCacheKey.new fcW.head_block_hash 2
        ∉ Engine.new.payload_id_cache.entries.map Prod.fst)
    ∧ ((Engine.new.notify_forkchoice_updated fcW (Option.some 1)
          (Except.ok respW)).response = Except.ok respW)
    ∧ (((Engine.new.notify_forkchoice_updated fcW (Option.some 1)
          (Except.ok respW)).engine.get_payload_id fcW.head_block_hash 1).1
        = Option.some 7)
    ∧ (((Engine.new.notify_forkchoice_updated fcW (Option.some 1)
          (Except.ok respW)).engine.get_payload_id fcW.head_block_hash 2).1
        = Option.none)
    ∧ (Engine.new.notify_forkchoice_updated fcW Option.none
          (Except.ok respW)).engine = Engine.new :=
  ⟨rfl, by decide, by decide,
   (thmC6 Engine.new fcW 1 2 7 respW rfl).1,
   (thmC6 Engine.new fcW 1 2 7 respW rfl).2.1,
   (thmC6 Engine.new fcW 1 2 7 respW rfl).2.2.1 (by decide) (by decide),
   (thmC6 Engine.new fcW 1 2 7 respW rfl).2.2.2.2.1⟩

/-- C7: under any sequence of `put` operations starting from the
coordinator's fresh cache, the payload-identifier cache never holds more
than 512 entries; and inserting a fresh key into a 512-entry cache of
capacity 512 evicts exactly the least-recently-used (last) entry, leaving
512 entries. -/
theorem thmC7 (ops : List (PayloadIdCacheKey × PayloadId))
    (c : LruCache PayloadIdCacheKey PayloadId) (k : PayloadIdCacheKey) (v : PayloadId) :
    ((ops.foldl (fun acc kv => acc.put kv.1 kv.2)
        Engine.new.payload_id_cache).entries.length ≤ 512)
    ∧ (c.cap = 512 → c.entries.length = 512 → k ∉ c.entries.map Prod.fst →
        (c.put k v).entries = (k, v) :: c.entries.dropLast
          ∧ (c.put k v).entries.length = 512) := by
  constructor
  · have h := foldl_put_length_le ops Engine.new.payload_id_cache (by decide) (by decide)
    rw [foldl_put_cap] at h
    simpa [Engine.new, PAYLOAD_ID_LRU_CACHE_SIZE] using h
  · intro hcap hlen hmem
    have heq := c.put_full_fresh k v hmem (by rw [hcap, hlen])
    refine ⟨heq, ?_⟩
    rw [heq]
    simp [List.length_dropLast, hlen]

set_option maxRecDepth 8192

/-- C7 witness: a full 512-entry cache receiving a 513th distinct key. -/
theorem thmC7_witness :
    (([] : List (PayloadIdCacheKey × PayloadId)).foldl
        (fun acc kv => acc.put kv.1 kv.2) Engine.new.payload_id_cache).entries.length ≤ 512
    ∧ fullCacheW.cap = 512
    ∧ fullCacheW.entries.length = 512
    ∧ PayloadIdCacheKey.new 512 0 ∉ fullCacheW.entries.map Prod.fst
    ∧ (fullCacheW.put (PayloadIdCacheKey.new 512 0) 0).entries
        = (PayloadIdCacheKey.new 512 0, 0) :: fullCacheW.entries.dropLast
    ∧ (fullCacheW.put (PayloadIdCacheKey.new 512 0) 0).entries.length = 512 :=
  ⟨(thmC7 [] fullCacheW (PayloadIdCacheKey.new 512 0) 0).1,
   rfl,
   by simp [fullCacheW],
   by decide,
   ((thmC7 [] fullCacheW (PayloadIdCacheKey.new 512 0) 0).2 rfl
     (by simp [fullCacheW]) (by decide)).1,
   ((thmC7 [] fullCacheW (PayloadIdCacheKey.new 512 0) 0).2 rfl
     (by simp [fullCacheW]) (by decide)).2⟩

/-- C8: for every probe outcome, `upcheck` leaves the payload-identifier
cache exactly as it was — no entry is added, removed or reordered. -/
theorem thmC8 (e : Engine) (api : ApiBehavior) :
    (e.upcheck api).engine.payload_id_cache = e.payload_id_cache := by
  obtain ⟨ur, fr, cr, vr⟩ := api
  cases ur with
  | ok u => rfl
  | error err => cases err <;> rfl

/-- C10: if the endpoint's `forkchoice_updated` call fails,
`notify_forkchoice_updated` returns that error and leaves the coordinator —
in particular the payload-identifier cache — exactly as it was. -/
theorem thmC10 (e : Engine) (forkchoice_state : ForkchoiceState)
    (payload_attributes : Option PayloadAttributes) (err : EngineApiError) :
    (e.notify_forkchoice_updated forkchoice_state payload_attributes
        (Except.error err)).response = Except.error err
    ∧ (e.notify_forkchoice_updated forkchoice_state payload_attributes
        (Except.error err)).engine = e
    ∧ (e.notify_forkchoice_updated forkchoice_state payload_attributes
        (Except.error err)).engine.payload_id_cache = e.payload_id_cache :=
  ⟨rfl, rfl, rfl⟩

end Engines
namespace BuilderClient

/-- C9 counterexample: the builder client's constructor offers no way to
configure the register-validators timeout — no constructor input yields a
value different from the fixed 15-second default, refuting that each of the
four operations has an independently configurable timeout. -/
theorem cexC9 :
    ¬ ∃ (user_agent : Option String) (builder_header_timeout : Option Nat),
      (BuilderHttpClient.new user_agent builder_header_timeout).timeouts.post_validators
        ≠ DEFAULT_TIMEOUT_MILLIS := by
  rintro ⟨ua, t, hne⟩
  exact hne rfl

/-- C9 amended: each of the four builder operations has its own timeout
value; the bid fetch defaults to 1 second and is the only one configurable
(via the constructor's optional header-timeout argument); the other three —
register validators, submit blinded block, status probe — are fixed at 15
seconds. -/
theorem thmC9 (user_agent : Option String) (builder_header_timeout : Option Nat)
    (d : Nat) :
    (BuilderHttpClient.new user_agent Option.none).timeouts.get_header
        = DEFAULT_GET_HEADER_TIMEOUT_MILLIS
    ∧ (BuilderHttpClient.new user_agent (Option.some d)).timeouts.get_header = d
    ∧ (BuilderHttpClient.new user_agent builder_header_timeout).timeouts.post_validators
        = DEFAULT_TIMEOUT_MILLIS
    ∧ (BuilderHttpClient.new user_agent builder_header_timeout).timeouts.post_blinded_blocks
        = DEFAULT_TIMEOUT_MILLIS
    ∧ (BuilderHttpClient.new user_agent builder_header_timeout).timeouts.get_builder_status
        = DEFAULT_TIMEOUT_MILLIS
    ∧ DEFAULT_GET_HEADER_TIMEOUT_MILLIS = 1000
    ∧ DEFAULT_TIMEOUT_MILLIS = 15000 :=
  ⟨rfl, rfl, rfl, rfl, rfl, rfl, rfl⟩

end BuilderClient
